import Mathlib

/-!
Shallow embedding of the VisuaLoom client core: the folder browser
(`FolderList.tsx`), the indexing controller (`IndexingPanel.tsx`),
the search pages (`Home` and `Indexed`), and the advanced explorer
helpers (`addToRecent` from the FileExplorer README listing).

Network calls are modelled by environment functions returning
`Option` (with `none` for a thrown request error); component state
is explicit state passing; the polling effect is a step relation
over event traces.
-/

namespace VisuaLoom

/-! ### JavaScript string primitives

The browser string operations used by the source, modelled over
`String.data` so that concrete instances reduce in the kernel. -/

/-- JavaScript `s.startsWith(pfx)`. -/
def jsStartsWith (s pfx : String) : Bool := pfx.data.isPrefixOf s.data

/-- JavaScript `s.endsWith(sfx)`. -/
def jsEndsWith (s sfx : String) : Bool := sfx.data.isSuffixOf s.data

/-- Split a character list on a separator character, JavaScript
`split` semantics: empty input gives one empty group, a separator at
either end gives an empty group there. -/
def splitOnChar (c : Char) : List Char → List (List Char)
  | [] => [[]]
  | x :: xs =>
    match splitOnChar c xs with
    | [] => [[]]
    | g :: gs => if x = c then [] :: g :: gs else (x :: g) :: gs

/-- JavaScript `p.split("/")`. -/
def jsSplitSlash (p : String) : List String :=
  (splitOnChar '/' p.data).map String.mk

/-- JavaScript `s.trim()` (whitespace per `Char.isWhitespace`, which
agrees with JavaScript on the ASCII whitespace the client sees). -/
def jsTrim (s : String) : String :=
  String.mk
    (((s.data.dropWhile Char.isWhitespace).reverse.dropWhile
        Char.isWhitespace).reverse)

/-- Item type from the FolderContents interface: "folder" | "image". -/
inductive ItemType
  | folder
  | image
  deriving DecidableEq, Repr

/-- An entry of a browse response (interface Item in FolderList.tsx). -/
structure Item where
  name : String
  path : String
  ty : ItemType
  deriving DecidableEq, Repr

/-- Browse response body (interface FolderContents in FolderList.tsx). -/
structure FolderContents where
  path : String
  items : List Item
  total : Nat
  deriving DecidableEq, Repr

/-- Root-folder display record (interface FolderInfo in FolderList.tsx);
only the fields the rootsInfo mapping actually sets. -/
structure FolderInfo where
  path : String
  name : String
  deriving DecidableEq, Repr

/-- The FolderList component state relevant to browsing: `expanded`
(useState of String or null), `contents` (Record from path to
FolderContents, modelled as a function to Option), plus an
instrumentation counter for issued browseFolder calls. -/
structure BrowserState where
  expanded : Option String
  contents : String → Option FolderContents
  browseCalls : Nat

/-- Environment for the browseFolder API call: `some` is the parsed
response body, `none` is a thrown request error. -/
def BrowseEnv : Type := String → Option FolderContents

/-- loadContents from FolderList.tsx: always issues one browseFolder
call; on success inserts the result under its path (spread update);
on failure only logs, leaving the contents map unchanged. -/
def loadContents (env : BrowseEnv) (s : BrowserState) (path : String) :
    BrowserState :=
  match env path with
  | some res =>
      { s with
        browseCalls := s.browseCalls + 1
        contents := fun q => if q = path then some res else s.contents q }
  | none => { s with browseCalls := s.browseCalls + 1 }

/-- toggleFolder from FolderList.tsx: collapse when `path` is the
expanded one; otherwise expand `path` and call loadContents
unconditionally. -/
def toggleFolder (env : BrowseEnv) (s : BrowserState) (path : String) :
    BrowserState :=
  if s.expanded = some path then
    { s with expanded := none }
  else
    loadContents env { s with expanded := some path } path

/-- The three values returned by getFolderIndexStatus: "indexed",
"partial", "none". -/
inductive IndexStatus
  | indexed
  | partly
  | notIndexed
  deriving DecidableEq, Repr

/-- getFolderIndexStatus from FolderList.tsx, over the extracted path
strings of the indexed-folders list (the source accepts strings or
objects carrying a path; either way it compares the path string). -/
def getFolderIndexStatus (indexedFolders : List String) (path : String) :
    IndexStatus :=
  if indexedFolders.isEmpty then .notIndexed
  else if indexedFolders.contains path then .indexed
  else
    let pfx := if jsEndsWith path "/" then path else path ++ "/"
    if indexedFolders.any (fun p => jsStartsWith p pfx) then .partly
    else .notIndexed

/-- The status function exactly as claim C3 words it: indexed iff an
exact match; else partial iff some entry starts with `path ++ "/"`;
else none. Kept separate from the source embedding so the two can be
compared. -/
def folderIndexStatusClaim (indexedFolders : List String) (path : String) :
    IndexStatus :=
  if indexedFolders.contains path then .indexed
  else if indexedFolders.any (fun p => jsStartsWith p (path ++ "/")) then
    .partly
  else .notIndexed

/-- The rootsInfo name computation from loadFolders in FolderList.tsx:
`p.split("/").filter(Boolean).pop() || p`. -/
def rootFolderName (p : String) : String :=
  match ((jsSplitSlash p).filter (fun s => s ≠ "")).getLast? with
  | some s => if s = "" then p else s
  | none => p

/-- The rootsInfo mapping from loadFolders in FolderList.tsx:
normalizes root path strings into FolderInfo records. -/
def rootsInfo (roots : List String) : List FolderInfo :=
  roots.map (fun p => { path := p, name := rootFolderName p })

/-! ### Indexing controller (IndexingPanel.tsx)

The polling useEffect creates one setInterval per non-null jobId and
clears it in the effect cleanup and on a done response. We model
executions as event traces over an explicit state: each in-flight
getIndexStatus request is tagged with the jobId captured by the
interval closure that issued it, together with the response payload
the backend will eventually deliver. -/

/-- State of the IndexingPanel component plus its timer resource.
`timerJob` is the jobId captured by the currently live interval
(`none` when no interval is live); `pending` holds in-flight
getIndexStatus requests as (captured jobId, response progress,
response done); `calls` records, in order, the jobId of every
getIndexStatus request issued. -/
structure PollState where
  jobId : Option String
  timerJob : Option String
  pending : List (String × Nat × Bool)
  calls : List String
  progress : Nat
  status : String
  lastUpdateFrom : Option String
  deriving DecidableEq, Repr

/-- Events of a polling execution: the interval fires (issuing a
status call whose eventual payload the environment chooses), a
pending response is delivered and its handler runs, or the target
jobId changes (React re-runs the effect: cleanup clears the old
interval, the new effect starts one for the new jobId). -/
inductive PollEvent
  | tick (progressVal : Nat) (done : Bool)
  | deliver (i : Nat)
  | setJob (j : String)
  deriving DecidableEq, Repr

/-- Whether an event changes the target jobId. -/
def PollEvent.isSetJob : PollEvent → Bool
  | .setJob _ => true
  | _ => false

/-- One step of the polling machine, following IndexingPanel.tsx:
a tick runs only while an interval is live and issues a call tagged
with the closure jobId; a delivered response always runs
setProgress(data.progress), and when data.done it sets status to
"done" and clears the closure interval (which is the live one only
if no setJob superseded it); setJob clears the old interval and
starts a new one for the new jobId. -/
def stepPoll (s : PollState) : PollEvent → PollState
  | .tick progressVal done =>
      match s.timerJob with
      | some j =>
          { s with
            calls := s.calls ++ [j]
            pending := s.pending ++ [(j, progressVal, done)] }
      | none => s
  | .deliver i =>
      match s.pending[i]? with
      | some (j, p, d) =>
          if d then
            { s with
              pending := s.pending.eraseIdx i
              progress := p
              lastUpdateFrom := some j
              status := "done"
              timerJob := if s.timerJob = some j then none else s.timerJob }
          else
            { s with
              pending := s.pending.eraseIdx i
              progress := p
              lastUpdateFrom := some j }
      | none => s
  | .setJob j =>
      { s with jobId := some j, timerJob := some j }

/-- Run a trace of polling events. -/
def runPoll (s : PollState) : List PollEvent → PollState
  | [] => s
  | e :: es => runPoll (stepPoll s e) es

/-- Component state touched by handleStartIndexing in
IndexingPanel.tsx. -/
structure PanelState where
  jobId : Option String
  status : String
  progress : Nat
  deriving DecidableEq, Repr

/-- handleStartIndexing from IndexingPanel.tsx: `resp` is the
response job_id on success, `none` when startIndexing throws. On
success it stores the job id and sets status "Indexing started"; on
failure it only logs and sets status "Error starting indexing". -/
def handleStartIndexing (resp : Option String) (s : PanelState) : PanelState :=
  match resp with
  | some jid => { s with jobId := some jid, status := "Indexing started" }
  | none => { s with status := "Error starting indexing" }

/-! ### Search pages (Home and Indexed) -/

/-- Search-page component state plus an instrumentation counter for
issued searchImages calls. Result items are kept opaque. -/
structure SearchState where
  query : String
  results : List String
  searchCalls : Nat
  deriving DecidableEq, Repr

/-- Environment for the searchImages API call: `some` is the parsed
result list (`res.results || []`), `none` a thrown request error. -/
def SearchEnv : Type := String → Option (List String)

/-- doSearch from the Home page: an empty/whitespace query clears the
results and returns without calling the backend; otherwise one
searchImages call, storing the results on success and clearing them
on failure. -/
def doSearchHome (net : SearchEnv) (s : SearchState) : SearchState :=
  if jsTrim s.query = "" then { s with results := [] }
  else
    match net s.query with
    | some rs => { s with results := rs, searchCalls := s.searchCalls + 1 }
    | none => { s with results := [], searchCalls := s.searchCalls + 1 }

/-- doSearch from the Indexed page: always issues one searchImages
call (no query guard), storing the results on success and clearing
them on failure. -/
def doSearchIndexed (net : SearchEnv) (s : SearchState) : SearchState :=
  match net s.query with
  | some rs => { s with results := rs, searchCalls := s.searchCalls + 1 }
  | none => { s with results := [], searchCalls := s.searchCalls + 1 }

/-! ### Advanced explorer recents (FileExplorer README listing) -/

/-- addToRecent from the FileExplorerAdvanced listing in the
FileExplorer README: prepend the path to the recents with every prior
occurrence of it filtered out, then keep the first 10. -/
def addToRecent (path : String) (recentFolders : List String) : List String :=
  (path :: recentFolders.filter (fun f => f ≠ path)).take 10

/-! ### Concrete fixtures used by witnesses and counterexamples -/

/-- A browse environment in which every request fails. -/
def envNone : BrowseEnv := fun _ => none

/-- A cached browse response for path "/r". -/
def cachedContents : FolderContents := { path := "/r", items := [], total := 1 }

/-- A fresh browse response for path "/r", distinct from the cached one. -/
def freshContents : FolderContents :=
  { path := "/r"
    items := [{ name := "x", path := "/r/x", ty := .folder }]
    total := 2 }

/-- A browser state whose contents cache already holds an entry for "/r". -/
def stCached : BrowserState :=
  { expanded := none
    contents := fun q => if q = "/r" then some cachedContents else none
    browseCalls := 0 }

/-- A browse environment answering "/r" with the fresh response. -/
def envFresh : BrowseEnv :=
  fun q => if q = "/r" then some freshContents else none

/-- A browser state in which "/a" is the expanded path. -/
def stExpandedA : BrowserState :=
  { expanded := some "/a", contents := fun _ => none, browseCalls := 0 }

/-- A search environment answering every query with an empty result list. -/
def netEmpty : SearchEnv := fun _ => some []

/-- A search environment in which every request fails. -/
def netFail : SearchEnv := fun _ => none

/-- A search state whose query is whitespace only and whose result list
still holds a previous result. -/
def stQueryWs : SearchState :=
  { query := "   ", results := ["stale"], searchCalls := 0 }

/-- Poll state right after a successful startIndexing for job "j1":
the effect has started the interval for "j1". -/
def stPollJ1 : PollState :=
  { jobId := some "j1"
    timerJob := some "j1"
    pending := []
    calls := []
    progress := 0
    status := "Indexing started"
    lastUpdateFrom := none }

/-! ### Helper lemmas -/

/-- The last element of a list is a member of it. -/
theorem mem_of_getLast?_eq_some {α : Type} {l : List α} {a : α}
    (h : l.getLast? = some a) : a ∈ l := by
  obtain ⟨ys, rfl⟩ := List.getLast?_eq_some_iff.mp h
  simp

/-- loadContents never changes which path is expanded. -/
theorem loadContents_expanded (env : BrowseEnv) (s : BrowserState)
    (p : String) : (loadContents env s p).expanded = s.expanded := by
  unfold loadContents
  cases env p <;> rfl

/-! ## Claims -/

/-- C10: every FolderInfo built by the rootsInfo mapping of loadFolders
has name equal to the last non-empty slash-separated segment of its
path; when the path has no non-empty segment the name falls back to
the path itself, so the name is never empty for a non-empty path. -/
theorem rootsInfo_name_spec (roots : List String) (fi : FolderInfo)
    (hfi : fi ∈ rootsInfo roots) :
    (∀ s, ((jsSplitSlash fi.path).filter (fun t => t ≠ "")).getLast? = some s →
      fi.name = s) ∧
    (((jsSplitSlash fi.path).filter (fun t => t ≠ "")).getLast? = none →
      fi.name = fi.path) ∧
    (fi.path ≠ "" → fi.name ≠ "") := by
  obtain ⟨p, hp, rfl⟩ := List.mem_map.mp hfi
  refine ⟨?_, ?_, ?_⟩
  · intro s hs
    have hmem := mem_of_getLast?_eq_some hs
    have hne : s ≠ "" := by
      have := (List.mem_filter.mp hmem).2
      exact of_decide_eq_true this
    show rootFolderName p = s
    unfold rootFolderName
    rw [hs]
    simp [hne]
  · intro h
    show rootFolderName p = p
    unfold rootFolderName
    rw [h]
  · intro hp0
    show rootFolderName p ≠ ""
    unfold rootFolderName
    cases hlast : ((jsSplitSlash p).filter (fun s => s ≠ "")).getLast? with
    | none => simpa using hp0
    | some s =>
        have hmem := mem_of_getLast?_eq_some hlast
        have hne : s ≠ "" := by
          have := (List.mem_filter.mp hmem).2
          exact of_decide_eq_true this
        simpa [if_neg hne] using hne

/-- C10 witness: for root "/home/alice" the constructed FolderInfo has
name "alice", which is non-empty. -/
theorem rootsInfo_name_spec_witness :
    ({ path := "/home/alice", name := "alice" } : FolderInfo).name
        = "alice" ∧
    ({ path := "/home/alice", name := "alice" } : FolderInfo).name ≠ "" := by
  have h := rootsInfo_name_spec ["/home/alice"]
    { path := "/home/alice", name := "alice" } (by decide)
  exact ⟨h.1 "alice" (by decide), h.2.2 (by decide)⟩

/-- C9: addToRecent puts the path first, removes every prior occurrence
of it, preserves freedom from duplicates, and caps the list at 10. -/
theorem addToRecent_invariants (r : List String) (p : String) :
    (addToRecent p r).head? = some p ∧
    p ∉ (addToRecent p r).tail ∧
    (r.Nodup → (addToRecent p r).Nodup) ∧
    (addToRecent p r).length ≤ 10 := by
  have hrep : addToRecent p r
      = p :: (r.filter (fun f => f ≠ p)).take 9 := rfl
  have hnotmem : p ∉ (r.filter (fun f => f ≠ p)).take 9 := by
    intro hmem
    have hmem2 : p ∈ r.filter (fun f => f ≠ p) :=
      List.Sublist.mem hmem (List.take_sublist 9 _)
    have := (List.mem_filter.mp hmem2).2
    exact (of_decide_eq_true this) rfl
  refine ⟨by rw [hrep]; rfl, by rw [hrep]; simpa using hnotmem, ?_, ?_⟩
  · intro hnd
    rw [hrep]
    exact List.nodup_cons.mpr
      ⟨hnotmem, List.Nodup.sublist (List.take_sublist 9 _) (hnd.filter _)⟩
  · rw [hrep]
    simp [List.length_take]

/-- C9 witness: adding "/b" to the recents ["/a", "/b", "/c"] gives a
deduplicated list headed by "/b" of length at most 10. -/
theorem addToRecent_invariants_witness :
    (addToRecent "/b" ["/a", "/b", "/c"]).head? = some "/b" ∧
    "/b" ∉ (addToRecent "/b" ["/a", "/b", "/c"]).tail ∧
    (addToRecent "/b" ["/a", "/b", "/c"]).Nodup ∧
    (addToRecent "/b" ["/a", "/b", "/c"]).length ≤ 10 := by
  have h := addToRecent_invariants ["/a", "/b", "/c"] "/b"
  exact ⟨h.1, h.2.1, h.2.2.1 (by decide), h.2.2.2⟩

/-- C8: a failed startIndexing moves the panel to the error status and
leaves the stored job id unchanged (in particular still unset when it
was unset); a successful one stores exactly the returned job id and
moves to the started status. -/
theorem handleStartIndexing_transitions (s : PanelState) (jid : String) :
    (handleStartIndexing none s).status = "Error starting indexing" ∧
    (handleStartIndexing none s).jobId = s.jobId ∧
    (s.jobId = none → (handleStartIndexing none s).jobId = none) ∧
    (handleStartIndexing (some jid) s).status = "Indexing started" ∧
    (handleStartIndexing (some jid) s).jobId = some jid := by
  refine ⟨rfl, rfl, ?_, rfl, rfl⟩
  intro h
  simpa [handleStartIndexing] using h

/-- C8 witness: starting from the initial panel state, a failed call
keeps the job id unset and an accepted job id "job-7" is stored. -/
theorem handleStartIndexing_transitions_witness :
    (handleStartIndexing none
      { jobId := none, status := "Not started", progress := 0 }).status
        = "Error starting indexing" ∧
    (handleStartIndexing none
      { jobId := none, status := "Not started", progress := 0 }).jobId
        = none ∧
    (handleStartIndexing (some "job-7")
      { jobId := none, status := "Not started", progress := 0 }).jobId
        = some "job-7" := by
  have h := handleStartIndexing_transitions
    { jobId := none, status := "Not started", progress := 0 } "job-7"
  exact ⟨h.1, h.2.2.1 rfl, h.2.2.2.2⟩

/-- C3 counterexample: at the trailing-slash path "/a/", the code
normalizes the descendant check to the path itself and reports partly
for the indexed entry "/a/x", while the claim, whose descendant test
is unconditionally `path ++ "/"`, predicts notIndexed there. -/
theorem getFolderIndexStatus_claim_cex :
    getFolderIndexStatus ["/a/x"] "/a/" = .partly ∧
    folderIndexStatusClaim ["/a/x"] "/a/" = .notIndexed ∧
    jsStartsWith "/a/x" ("/a/" ++ "/") = false := by decide

/-- C3 (amended): getFolderIndexStatus returns indexed iff the path is
exactly in the indexed list; otherwise partly iff some entry starts
with the path followed by "/" when the path does not already end in
"/", or with the path itself when it does; otherwise notIndexed. -/
theorem getFolderIndexStatus_characterization (L : List String)
    (p : String) :
    (getFolderIndexStatus L p = .indexed ↔ p ∈ L) ∧
    (getFolderIndexStatus L p = .partly ↔
      p ∉ L ∧ ∃ e ∈ L,
        jsStartsWith e (if jsEndsWith p "/" then p else p ++ "/") = true) ∧
    (getFolderIndexStatus L p = .notIndexed ↔
      p ∉ L ∧ ¬ ∃ e ∈ L,
        jsStartsWith e (if jsEndsWith p "/" then p else p ++ "/") = true) := by
  unfold getFolderIndexStatus
  by_cases h1 : L.isEmpty = true
  · rw [if_pos h1]
    have hnil : L = [] := List.isEmpty_iff.mp h1
    subst hnil
    simp
  · rw [if_neg h1]
    by_cases h2 : L.contains p = true
    · rw [if_pos h2]
      have hp : p ∈ L := List.elem_iff.mp h2
      simp [hp]
    · rw [if_neg h2]
      have hp : p ∉ L := fun hm => h2 (List.elem_iff.mpr hm)
      by_cases h3 : L.any
          (fun e =>
            jsStartsWith e (if jsEndsWith p "/" then p else p ++ "/"))
          = true
      · have hex3 : ∃ e ∈ L,
            jsStartsWith e (if jsEndsWith p "/" then p else p ++ "/")
              = true :=
          List.any_eq_true.mp h3
        simp [h3, hp, hex3]
      · have hnex : ¬ ∃ e ∈ L,
            jsStartsWith e (if jsEndsWith p "/" then p else p ++ "/")
              = true :=
          fun hx => h3 (List.any_eq_true.mpr hx)
        simp [h3, hp, hnex]

/-- C1 counterexample: with a cache entry for "/r" present, expanding
"/r" still issues one browse call and overwrites the cached entry
with the fresh response. -/
theorem toggleFolder_cacheHit_cex :
    stCached.contents "/r" = some cachedContents ∧
    (toggleFolder envFresh stCached "/r").browseCalls
        = stCached.browseCalls + 1 ∧
    (toggleFolder envFresh stCached "/r").contents "/r"
        = some freshContents ∧
    freshContents ≠ cachedContents := by
  refine ⟨rfl, rfl, rfl, by decide⟩

/-- C1 (amended): expanding a path that is not currently expanded
always issues exactly one browse call, cache hit or not; on success
the cache entry for the path is overwritten with the response, and on
failure the contents map is left unchanged. -/
theorem toggleFolder_expand_always_browses (env : BrowseEnv)
    (s : BrowserState) (p : String) (h : s.expanded ≠ some p) :
    (toggleFolder env s p).browseCalls = s.browseCalls + 1 ∧
    (toggleFolder env s p).expanded = some p ∧
    (∀ c, env p = some c → (toggleFolder env s p).contents p = some c) ∧
    (env p = none → (toggleFolder env s p).contents = s.contents) := by
  unfold toggleFolder
  rw [if_neg h]
  unfold loadContents
  cases henv : env p with
  | some c0 =>
      refine ⟨rfl, rfl, ?_, ?_⟩
      · intro c hc
        injection hc with hcc
        subst hcc
        simp
      · intro h0
        cases h0
  | none =>
      refine ⟨rfl, rfl, ?_, ?_⟩
      · intro c hc
        exact Option.noConfusion hc
      · intro _
        rfl

/-- C1 witness: expanding "/r" from the cached state issues the browse
call and stores the fresh response. -/
theorem toggleFolder_expand_always_browses_witness :
    (toggleFolder envFresh stCached "/r").browseCalls = 1 ∧
    (toggleFolder envFresh stCached "/r").expanded = some "/r" ∧
    (toggleFolder envFresh stCached "/r").contents "/r"
        = some freshContents := by
  have h := toggleFolder_expand_always_browses envFresh stCached "/r"
    (by decide)
  exact ⟨h.1, h.2.1, h.2.2.1 freshContents rfl⟩

/-- How toggleFolder transforms the expanded path. -/
theorem toggleFolder_expanded (env : BrowseEnv) (s : BrowserState)
    (p : String) :
    (toggleFolder env s p).expanded
      = if s.expanded = some p then none else some p := by
  unfold toggleFolder
  split_ifs with h
  · rfl
  · rw [loadContents_expanded]

/-- C6 counterexample: with "/a" expanded, toggling "/b" twice ends
with nothing expanded instead of restoring "/a". -/
theorem toggleFolder_twice_cex :
    stExpandedA.expanded = some "/a" ∧
    (toggleFolder envNone (toggleFolder envNone stExpandedA "/b")
        "/b").expanded = none := ⟨rfl, rfl⟩

/-- C6 (amended): toggling a path twice restores the original
expansion state when the initially expanded path is that path or
nothing; when a different path was expanded, the result is the
collapsed state. -/
theorem toggleFolder_twice_restores (env1 env2 : BrowseEnv)
    (s : BrowserState) (p : String) :
    ((s.expanded = none ∨ s.expanded = some p) →
      (toggleFolder env2 (toggleFolder env1 s p) p).expanded
        = s.expanded) ∧
    (∀ q, s.expanded = some q → q ≠ p →
      (toggleFolder env2 (toggleFolder env1 s p) p).expanded = none) := by
  constructor
  · rintro (he | he) <;>
      simp [toggleFolder_expanded, he]
  · intro q hq hqp
    have hne : s.expanded ≠ some p := by
      rw [hq]
      intro hcontra
      exact hqp (Option.some.inj hcontra)
    simp [toggleFolder_expanded, hne]

/-- C6 witness: toggling the already expanded "/a" twice restores it,
and toggling "/b" twice from that state collapses everything. -/
theorem toggleFolder_twice_restores_witness :
    (toggleFolder envNone (toggleFolder envNone stExpandedA "/a")
        "/a").expanded = some "/a" ∧
    (toggleFolder envNone (toggleFolder envNone stExpandedA "/b")
        "/b").expanded = none := by
  refine ⟨?_, ?_⟩
  · have h := toggleFolder_twice_restores envNone envNone stExpandedA "/a"
    exact h.1 (Or.inr rfl)
  · have h := toggleFolder_twice_restores envNone envNone stExpandedA "/b"
    exact h.2 "/a" rfl (by decide)

/-- C5 counterexample: a failed browse of "/r" leaves the previously
cached (now stale) entry for "/r" in place rather than resetting it. -/
theorem loadContents_failure_keeps_stale_cex :
    stCached.contents "/r" = some cachedContents ∧
    (loadContents envNone stCached "/r").contents "/r"
        = some cachedContents ∧
    some cachedContents ≠ (none : Option FolderContents) := by
  refine ⟨rfl, rfl, by decide⟩

/-- C5 (amended): a failed search resets the result list to empty in
both search pages, but a failed browse leaves the contents map
unchanged, so a stale cached entry for the path survives. -/
theorem callers_on_failure (net : SearchEnv) (env : BrowseEnv)
    (hs si : SearchState) (bs : BrowserState) (p : String) :
    (jsTrim hs.query ≠ "" → net hs.query = none →
      (doSearchHome net hs).results = []) ∧
    (net si.query = none → (doSearchIndexed net si).results = []) ∧
    (env p = none → (loadContents env bs p).contents = bs.contents ∧
      (loadContents env bs p).browseCalls = bs.browseCalls + 1) := by
  refine ⟨?_, ?_, ?_⟩
  · intro hq hnet
    unfold doSearchHome
    rw [if_neg hq, hnet]
  · intro hnet
    unfold doSearchIndexed
    rw [hnet]
  · intro henv
    unfold loadContents
    rw [henv]
    exact ⟨rfl, rfl⟩

/-- C5 witness: with every request failing, both searches end with an
empty result list and the failed browse leaves the cache untouched. -/
theorem callers_on_failure_witness :
    (doSearchHome netFail
      { query := "red car", results := ["stale"], searchCalls := 0 }).results
        = [] ∧
    (doSearchIndexed netFail stQueryWs).results = [] ∧
    (loadContents envNone stCached "/r").contents = stCached.contents := by
  have h := callers_on_failure netFail envNone
    { query := "red car", results := ["stale"], searchCalls := 0 }
    stQueryWs stCached "/r"
  exact ⟨h.1 (by decide) rfl, h.2.1 rfl, (h.2.2 rfl).1⟩

/-- C7 counterexample: the Indexed page search issues one searchImages
call even for a whitespace-only query. -/
theorem doSearchIndexed_whitespace_cex :
    stQueryWs.query = "   " ∧
    (doSearchIndexed netEmpty stQueryWs).searchCalls = 1 := ⟨rfl, rfl⟩

/-- C7 (amended): the Home page search never issues a call for an
empty or whitespace-only query and clears the results, but the
Indexed page search issues exactly one call regardless of the query. -/
theorem search_whitespace_guard (net : SearchEnv) (s : SearchState) :
    (jsTrim s.query = "" →
      (doSearchHome net s).searchCalls = s.searchCalls ∧
      (doSearchHome net s).results = []) ∧
    (doSearchIndexed net s).searchCalls = s.searchCalls + 1 := by
  constructor
  · intro h
    unfold doSearchHome
    rw [if_pos h]
    exact ⟨rfl, rfl⟩
  · unfold doSearchIndexed
    cases net s.query <;> rfl

/-- C7 witness: on the whitespace query state the Home search issues
no call and clears the results, while the Indexed search issues one. -/
theorem search_whitespace_guard_witness :
    (doSearchHome netEmpty stQueryWs).searchCalls = 0 ∧
    (doSearchHome netEmpty stQueryWs).results = [] ∧
    (doSearchIndexed netEmpty stQueryWs).searchCalls = 1 := by
  have h := search_whitespace_guard netEmpty stQueryWs
  exact ⟨(h.1 (by decide)).1, (h.1 (by decide)).2, h.2⟩

/-- With no live interval, a trace free of job-id changes issues no
status calls and never revives the timer. -/
theorem runPoll_inactive (evs : List PollEvent) (s : PollState)
    (h : s.timerJob = none)
    (hnoset : ∀ e ∈ evs, e.isSetJob = false) :
    (runPoll s evs).calls = s.calls ∧ (runPoll s evs).timerJob = none := by
  induction evs generalizing s with
  | nil => exact ⟨rfl, h⟩
  | cons e es ih =>
      have he : e.isSetJob = false := hnoset e (List.mem_cons_self e es)
      have hes : ∀ e2 ∈ es, e2.isSetJob = false :=
        fun e2 hm => hnoset e2 (List.mem_cons_of_mem e hm)
      have hstep : (stepPoll s e).calls = s.calls ∧
          (stepPoll s e).timerJob = none := by
        cases e with
        | tick pv d => simp [stepPoll, h]
        | deliver i =>
            cases hg : s.pending[i]? with
            | none => simp [stepPoll, hg, h]
            | some t =>
                obtain ⟨j, pr, d⟩ := t
                cases d with
                | false => simp [stepPoll, hg, h]
                | true => simp [stepPoll, hg, h]
        | setJob j => simp [PollEvent.isSetJob] at he
      have hrest := ih (stepPoll s e) hstep.2 hes
      exact ⟨hrest.1.trans hstep.1, hrest.2⟩

/-- C4: delivering a getIndexStatus response with done set, for the
job the live interval is polling, cancels the timer, and as long as
the target job id is not changed again no further status calls are
issued: the call list stabilizes at its value at the moment done was
observed. -/
theorem pollingStopsAfterDone (s : PollState) (j : String) (i pr : Nat)
    (evs : List PollEvent)
    (hpend : s.pending[i]? = some (j, pr, true))
    (htimer : s.timerJob = some j)
    (hnoset : ∀ e ∈ evs, e.isSetJob = false) :
    (stepPoll s (.deliver i)).timerJob = none ∧
    (stepPoll s (.deliver i)).calls = s.calls ∧
    (runPoll (stepPoll s (.deliver i)) evs).calls = s.calls := by
  have hstep : (stepPoll s (.deliver i)).timerJob = none ∧
      (stepPoll s (.deliver i)).calls = s.calls := by
    constructor <;> simp [stepPoll, hpend, htimer]
  have hrest := runPoll_inactive evs _ hstep.1 hnoset
  exact ⟨hstep.1, hstep.2, hrest.1.trans hstep.2⟩

/-- Poll state while job "j1" is being polled with one response, done
and carrying progress 50, still in flight. -/
def stDonePending : PollState :=
  { jobId := some "j1"
    timerJob := some "j1"
    pending := [("j1", 50, true)]
    calls := ["j1"]
    progress := 10
    status := "Indexing started"
    lastUpdateFrom := none }

/-- C4 witness: delivering the done response cancels the timer and two
further interval ticks issue no status call. -/
theorem pollingStopsAfterDone_witness :
    (stepPoll stDonePending (.deliver 0)).timerJob = none ∧
    (stepPoll stDonePending (.deliver 0)).calls = ["j1"] ∧
    (runPoll (stepPoll stDonePending (.deliver 0))
        [.tick 70 false, .tick 80 false, .deliver 0]).calls = ["j1"] := by
  have h := pollingStopsAfterDone stDonePending "j1" 0 50
    [.tick 70 false, .tick 80 false, .deliver 0] rfl rfl (by decide)
  exact ⟨h.1, h.2.1, h.2.2⟩

/-- C2: starting from polling job "j1", a status call goes out, the
target changes to "j2", and then the stale "j1" response arrives: its
handler still runs setProgress, so progress is overwritten from a
"j1" response after the target became "j2" — the code has no
identity guard against the stale in-flight poll. -/
theorem stalePollOverwritesNewJob :
    (runPoll stPollJ1 [.tick 42 false, .setJob "j2", .deliver 0]).jobId
        = some "j2" ∧
    (runPoll stPollJ1 [.tick 42 false, .setJob "j2", .deliver 0]).progress
        = 42 ∧
    (runPoll stPollJ1
        [.tick 42 false, .setJob "j2", .deliver 0]).lastUpdateFrom
        = some "j1" := by
  refine ⟨rfl, rfl, rfl⟩

end VisuaLoom
